import Mathlib

/-!
Verification of the 8BitGE particle / animation / tween subsystem.

The definitions below are a shallow embedding of the TypeScript sources
`src/8bitge/utils/math.ts`, `src/8bitge/systems/particles.ts` and
`src/8bitge/utils/animation.ts`.  JavaScript numbers are modelled as
rationals (`ℚ`); `Math.random()` draws are modelled as an explicit stream
`rand : ℕ → ℚ` threaded through the emitter operations together with a
draw index, so every theorem quantifies over the values actually drawn.
Callbacks (`onStart`/`onUpdate`/`onEnd`/`onComplete`) are modelled as
observable events returned by the update functions rather than as state
mutators; canvas drawing and image loading are rendering-only and are not
modelled.
-/

namespace EightBitGE

/-- Embedding of `lerp` from `src/8bitge/utils/math.ts`: `a + (b - a) * t`. -/
def lerp (a b t : ℚ) : ℚ := a + (b - a) * t

/-- A 2D vector with rational coordinates (`Vector2D` from `types.ts`). -/
structure Vector2D where
  x : ℚ
  y : ℚ
deriving DecidableEq, Repr

/-- Embedding of `lerpVectors` from `src/8bitge/utils/math.ts`. -/
def lerpVectors (v1 v2 : Vector2D) (t : ℚ) : Vector2D :=
  ⟨lerp v1.x v2.x t, lerp v1.y v2.y t⟩

/-- Embedding of `clamp` from `src/8bitge/utils/math.ts`. -/
def clamp (value lo hi : ℚ) : ℚ := max lo (min value hi)

/-- Quadratic ease-in from `math.ts`: `t * t`. -/
def easeIn (t : ℚ) : ℚ := t * t

/-- Quadratic ease-out from `math.ts`: `t * (2 - t)`. -/
def easeOut (t : ℚ) : ℚ := t * (2 - t)

/-- Piecewise ease-in-out from `math.ts`. -/
def easeInOut (t : ℚ) : ℚ := if t < 1/2 then 2 * t * t else -1 + (4 - 2 * t) * t

/-- Embedding of `random(min, max)` from `math.ts`, which is `Math.random() * (max - min) + min`;
the `Math.random()` draw is made explicit as the rational `r`. -/
def randomIn (r lo hi : ℚ) : ℚ := r * (hi - lo) + lo

/-- JavaScript truncation toward zero (`Math.trunc`), used to model `x % 1`. -/
def jsTrunc (q : ℚ) : ℤ := if 0 ≤ q then ⌊q⌋ else -⌊-q⌋

/-- Particle shapes.  The TS union type is
`'circle' | 'square' | 'triangle' | 'image'`; the `rain` preset additionally
uses the literal `'line'`, which we therefore include. -/
inductive PShape where
  | circle
  | square
  | triangle
  | image
  | line
deriving DecidableEq, Repr

/-- Blend modes (`ParticleBlendMode`). -/
inductive BlendMode where
  | normal
  | add
  | multiply
  | screen
deriving DecidableEq, Repr

/-- A CSS color value: either a single string or an array of strings
(JS lets the `explosion` preset pass a `string[]` through the `color`
field).  Canvas gradients/patterns are rendering-only and not modelled. -/
inductive ColorSpec where
  | str (s : String)
  | many (l : List String)
deriving DecidableEq, Repr

/-- A scalar option that is either a single number or a `[start, end]` pair
(used by the `size` and `opacity` options). -/
inductive ScalarRange where
  | single (v : ℚ)
  | range (a b : ℚ)
deriving DecidableEq, Repr

/-- The particle option template (`ParticleOptions` in `particles.ts`,
minus `position`, which the emitter supplies separately, and minus the
callback fields, which are modelled as events). -/
structure ParticleOptions where
  velocity : Option Vector2D
  acceleration : Option Vector2D
  color : Option ColorSpec
  colors : Option (List String)
  size : Option ScalarRange
  shape : Option PShape
  rotation : Option ℚ
  rotationVelocity : Option ℚ
  opacity : Option ScalarRange
  lifetime : Option ℚ
  blendMode : Option BlendMode
  fadeOut : Option Bool
deriving DecidableEq, Repr

/-- JS `x || d` on an optional number: `undefined` and `0` fall back. -/
def jsOrNum (o : Option ℚ) (d : ℚ) : ℚ :=
  match o with
  | none => d
  | some v => if v = 0 then d else v

/-- JS string coercion of a `ColorSpec` (an array coerces to its
comma-joined elements), used for `this.color as string`. -/
def ColorSpec.asString : ColorSpec → String
  | .str s => s
  | .many l => String.intercalate "," l

/-- JS `options.color || '#ffffff'`: `undefined` and the empty string fall
back to white; arrays are always truthy. -/
def jsOrColor (o : Option ColorSpec) (d : ColorSpec) : ColorSpec :=
  match o with
  | none => d
  | some (.str s) => if s = "" then d else .str s
  | some c => c

/-- The `Particle` class state (numeric and lifecycle fields). -/
structure Particle where
  position : Vector2D
  velocity : Vector2D
  acceleration : Vector2D
  color : ColorSpec
  colors : List String
  currentColor : String
  size : ℚ
  startSize : ℚ
  endSize : ℚ
  shape : PShape
  rotation : ℚ
  rotationVelocity : ℚ
  opacity : ℚ
  startOpacity : ℚ
  endOpacity : ℚ
  lifetime : ℚ
  age : ℚ
  active : Bool
  blendMode : BlendMode
  fadeOut : Bool
deriving DecidableEq, Repr

/-- The `Particle` constructor: resolves defaults exactly as the TS class
body does (`options.size || 10`, `options.opacity !== undefined ? _ : 1`,
`options.lifetime || 1000`, `fadeOut !== undefined ? _ : true`, ...). -/
def mkParticle (pos : Vector2D) (o : ParticleOptions) : Particle :=
  let (startSize, endSize, size) :=
    match o.size with
    | some (.range a b) => (a, b, a)
    | some (.single v) => let s := if v = 0 then 10 else v; (s, s, s)
    | none => ((10 : ℚ), 10, 10)
  let (startOpacity, endOpacity, opacity) :=
    match o.opacity with
    | some (.range a b) => (a, b, a)
    | some (.single v) => (v, v, v)
    | none => ((1 : ℚ), 1, 1)
  let color := jsOrColor o.color (.str "#ffffff")
  let colors := o.colors.getD []
  { position := pos
    velocity := o.velocity.getD ⟨0, 0⟩
    acceleration := o.acceleration.getD ⟨0, 0⟩
    color := color
    colors := colors
    currentColor := match colors with
      | c :: _ => c
      | [] => color.asString
    size := size
    startSize := startSize
    endSize := endSize
    shape := o.shape.getD .circle
    rotation := o.rotation.getD 0
    rotationVelocity := o.rotationVelocity.getD 0
    opacity := opacity
    startOpacity := startOpacity
    endOpacity := endOpacity
    lifetime := jsOrNum o.lifetime 1000
    age := 0
    active := true
    blendMode := o.blendMode.getD .normal
    fadeOut := o.fadeOut.getD true }

/-- The opacity interpolation of `Particle.update` when `fadeOut` is set
(lines 163–175 of `particles.ts`): below 75% of lifetime, the start→end
interpolation is rescaled into `[0, 0.75]`; past 75%, the value fades
linearly to `0`. -/
def fadeOutOpacity (startO endO progress : ℚ) : ℚ :=
  let fadeStart : ℚ := 3/4
  if progress > fadeStart then
    lerp (startO + (endO - startO) * min (progress / fadeStart) 1) 0
      ((progress - fadeStart) / (1 - fadeStart))
  else
    lerp startO endO (progress / fadeStart)

/-- Result of one `Particle.update(deltaTime)` call: the new particle
state, the boolean return value, and whether the `onEnd` callback point
was reached on this call. -/
structure ParticleStep where
  particle : Particle
  alive : Bool
  endFired : Bool
deriving DecidableEq, Repr

/-- Embedding of `Particle.update(deltaTime)` from `particles.ts`.  `lc` models the
private string-valued `lerpColor` helper (its parsing of CSS color strings
is irrelevant to every claim, so it is kept abstract); the structural color
segment selection is embedded exactly. -/
def Particle.update (lc : String → String → ℚ → String) (p : Particle) (dt : ℚ) :
    ParticleStep :=
  if p.active = false then ⟨p, false, false⟩
  else
    let p1 := { p with age := p.age + dt }
    if p1.age ≥ p1.lifetime then
      ⟨{ p1 with active := false }, false, true⟩
    else
      let progress := p1.age / p1.lifetime
      let vel : Vector2D := ⟨p1.velocity.x + p1.acceleration.x * dt / 1000,
                             p1.velocity.y + p1.acceleration.y * dt / 1000⟩
      let pos : Vector2D := ⟨p1.position.x + vel.x * dt / 1000,
                             p1.position.y + vel.y * dt / 1000⟩
      let rot := p1.rotation + p1.rotationVelocity * dt / 1000
      let sz := lerp p1.startSize p1.endSize progress
      let op := if p1.fadeOut then fadeOutOpacity p1.startOpacity p1.endOpacity progress
                else lerp p1.startOpacity p1.endOpacity progress
      let cc :=
        if 1 < p1.colors.length then
          let n : ℕ := p1.colors.length
          let cp := progress * ((n : ℚ) - 1)
          let ci : ℤ := ⌊cp⌋
          let cprog := cp - (jsTrunc cp : ℚ)
          if ci < (n : ℤ) - 1 then
            lc (p1.colors.getD ci.toNat "") (p1.colors.getD (ci.toNat + 1) "") cprog
          else p1.colors.getD (n - 1) ""
        else p1.currentColor
      ⟨{ p1 with velocity := vel, position := pos, rotation := rot,
                 size := sz, opacity := op, currentColor := cc }, true, false⟩

/-- The `EmitterOptions` interface from `particles.ts` (callback-free). -/
structure EmitterOptions where
  position : Vector2D
  followTarget : Option Bool
  emissionRate : ℚ
  burstCount : Option ℚ
  maxParticles : Option ℚ
  duration : Option ℚ
  loop : Option Bool
  particleOptions : ParticleOptions
  positionVariance : Option Vector2D
  velocityVariance : Option Vector2D
  sizeVariance : Option ℚ
  lifetimeVariance : Option ℚ
  colorVariance : Option ℚ
deriving DecidableEq, Repr

/-- The `ParticleEmitter` class state: the constructor-resolved
configuration together with the private mutable fields.  `rngIdx` indexes
the explicit `Math.random()` stream; `emittedTotal` is a ghost counter of
`emitParticle` calls added for specification purposes only. -/
structure ParticleEmitter where
  position : Vector2D
  followTarget : Bool
  emissionRate : ℚ
  burstCount : ℚ
  maxParticles : ℚ
  duration : ℚ
  loop : Bool
  particleOptions : ParticleOptions
  positionVariance : Vector2D
  velocityVariance : Vector2D
  sizeVariance : ℚ
  lifetimeVariance : ℚ
  colorVariance : ℚ
  active : Bool
  age : ℚ
  emissionAccumulator : ℚ
  particles : List Particle
  rngIdx : ℕ
  emittedTotal : ℕ
deriving DecidableEq, Repr

/-- The `ParticleEmitter` constructor (`options.burstCount || 0`,
`options.maxParticles || 0`, `options.duration || 0`, `loop || false`,
variances defaulting to `0` / `{x:0,y:0}`). -/
def mkEmitter (o : EmitterOptions) : ParticleEmitter :=
  { position := o.position
    followTarget := o.followTarget.getD false
    emissionRate := o.emissionRate
    burstCount := o.burstCount.getD 0
    maxParticles := o.maxParticles.getD 0
    duration := o.duration.getD 0
    loop := o.loop.getD false
    particleOptions := o.particleOptions
    positionVariance := o.positionVariance.getD ⟨0, 0⟩
    velocityVariance := o.velocityVariance.getD ⟨0, 0⟩
    sizeVariance := o.sizeVariance.getD 0
    lifetimeVariance := o.lifetimeVariance.getD 0
    colorVariance := o.colorVariance.getD 0
    active := false
    age := 0
    emissionAccumulator := 0
    particles := []
    rngIdx := 0
    emittedTotal := 0 }

/-- Embedding of `ParticleEmitter.emitParticle`: applies position / velocity / size /
lifetime variance using consecutive draws of the random stream in source
order and appends the new particle to the live list. -/
def ParticleEmitter.emitParticle (rand : ℕ → ℚ) (e : ParticleEmitter) :
    ParticleEmitter :=
  let i0 := e.rngIdx
  let pos : Vector2D :=
    ⟨e.position.x + randomIn (rand i0) (-e.positionVariance.x) e.positionVariance.x,
     e.position.y + randomIn (rand (i0 + 1)) (-e.positionVariance.y) e.positionVariance.y⟩
  let i1 := i0 + 2
  let (vel, i2) :=
    match e.particleOptions.velocity with
    | some v =>
        (some (Vector2D.mk
            (v.x + randomIn (rand i1) (-e.velocityVariance.x) e.velocityVariance.x)
            (v.y + randomIn (rand (i1 + 1)) (-e.velocityVariance.y) e.velocityVariance.y)),
         i1 + 2)
    | none => (none, i1)
  let (sz, i3) :=
    if 0 < e.sizeVariance then
      match e.particleOptions.size with
      | some (.range a b) =>
          (some (ScalarRange.range
              (a * randomIn (rand i2) (1 - e.sizeVariance) (1 + e.sizeVariance))
              (b * randomIn (rand (i2 + 1)) (1 - e.sizeVariance) (1 + e.sizeVariance))),
           i2 + 2)
      | some (.single v) =>
          (some (ScalarRange.single
              (v * randomIn (rand i2) (1 - e.sizeVariance) (1 + e.sizeVariance))),
           i2 + 1)
      | none => (none, i2)
    else (e.particleOptions.size, i2)
  let (lt, i4) :=
    if 0 < e.lifetimeVariance then
      match e.particleOptions.lifetime with
      | some v =>
          (some (v * randomIn (rand i3) (1 - e.lifetimeVariance) (1 + e.lifetimeVariance)),
           i3 + 1)
      | none => (none, i3)
    else (e.particleOptions.lifetime, i3)
  let p := mkParticle pos
    { e.particleOptions with velocity := vel, size := sz, lifetime := lt }
  { e with particles := e.particles ++ [p], rngIdx := i4,
           emittedTotal := e.emittedTotal + 1 }

/-- The shared emission loop of `burst` and of the continuous-emission
section of `update`: before each emission the `maxParticles` cap is
checked, and the loop stops (`return` / `break`) once
`particles.length >= maxParticles`. -/
def ParticleEmitter.emitN (rand : ℕ → ℚ) (e : ParticleEmitter) : ℕ → ParticleEmitter
  | 0 => e
  | n + 1 =>
      if 0 < e.maxParticles ∧ e.maxParticles ≤ (e.particles.length : ℚ) then e
      else ParticleEmitter.emitN rand (e.emitParticle rand) n

/-- A JS `for (let i = 0; i < count; i++)` loop on a `number` bound runs
`max 0 ⌈count⌉` iterations. -/
def loopCount (c : ℚ) : ℕ := (⌈c⌉).toNat

/-- Embedding of `ParticleEmitter.burst(count)`. -/
def ParticleEmitter.burst (rand : ℕ → ℚ) (e : ParticleEmitter) (count : ℚ) :
    ParticleEmitter :=
  e.emitN rand (loopCount count)

/-- Embedding of `ParticleEmitter.start()`: activate, reset age, initial burst if
`burstCount > 0`. -/
def ParticleEmitter.start (rand : ℕ → ℚ) (e : ParticleEmitter) : ParticleEmitter :=
  let e1 := { e with active := true, age := 0 }
  if 0 < e1.burstCount then e1.burst rand e1.burstCount else e1

/-- Embedding of `ParticleEmitter.stop()`. -/
def ParticleEmitter.stop (e : ParticleEmitter) : ParticleEmitter :=
  { e with active := false }

/-- Embedding of `ParticleEmitter.isActive()`: explicitly started or any particle
remains live. -/
def ParticleEmitter.isActive (e : ParticleEmitter) : Bool :=
  e.active || e.particles.length != 0

/-- Embedding of `ParticleEmitter.getParticleCount()`. -/
def ParticleEmitter.getParticleCount (e : ParticleEmitter) : ℕ :=
  e.particles.length

/-- Embedding of `ParticleEmitter.clear()`. -/
def ParticleEmitter.clear (e : ParticleEmitter) : ParticleEmitter :=
  { e with particles := [] }

/-- The tail of `ParticleEmitter.update` after the duration bookkeeping:
continuous emission through the fractional accumulator, then one
`Particle.update(deltaTime)` per live particle with removal of the ones
that report inactive (the source's backward-iterating splice loop is
order-preserving and touches each particle once, i.e. a `filterMap`). -/
def ParticleEmitter.updateRest (lc : String → String → ℚ → String)
    (rand : ℕ → ℚ) (e : ParticleEmitter) (dt : ℚ) : ParticleEmitter :=
  let e1 :=
    if e.active ∧ 0 < e.emissionRate then
      let acc := e.emissionAccumulator + e.emissionRate * dt / 1000
      let k : ℤ := ⌊acc⌋
      let e' := { e with emissionAccumulator := acc - (k : ℚ) }
      e'.emitN rand k.toNat
    else e
  { e1 with particles := e1.particles.filterMap fun p =>
      let r := p.update lc dt
      if r.alive then some r.particle else none }

/-- Embedding of `ParticleEmitter.update(deltaTime)`: no-op when not active; otherwise
age/duration bookkeeping (with loop reset and re-burst, or deactivation),
then emission and per-particle update. -/
def ParticleEmitter.update (lc : String → String → ℚ → String)
    (rand : ℕ → ℚ) (e : ParticleEmitter) (dt : ℚ) : ParticleEmitter :=
  if e.active = false then e
  else
    let e1 := { e with age := e.age + dt }
    if 0 < e1.duration ∧ e1.duration ≤ e1.age then
      if e1.loop then
        let e2 := { e1 with age := 0 }
        let e3 := if 0 < e2.burstCount then e2.burst rand e2.burstCount else e2
        e3.updateRest lc rand dt
      else { e1 with active := false }
    else e1.updateRest lc rand dt

/-- Iterated `update` over a list of frame deltas. -/
def emitterRun (lc : String → String → ℚ → String) (rand : ℕ → ℚ)
    (e : ParticleEmitter) : List ℚ → ParticleEmitter
  | [] => e
  | dt :: rest => emitterRun lc rand (e.update lc rand dt) rest

/-- The public operations a host may interleave on one emitter. -/
inductive EmitterOp where
  | start
  | stop
  | burst (count : ℚ)
  | update (dt : ℚ)
deriving DecidableEq, Repr

/-- Run a sequence of emitter operations. -/
def runOps (lc : String → String → ℚ → String) (rand : ℕ → ℚ)
    (e : ParticleEmitter) : List EmitterOp → ParticleEmitter
  | [] => e
  | .start :: rest => runOps lc rand (e.start rand) rest
  | .stop :: rest => runOps lc rand e.stop rest
  | .burst c :: rest => runOps lc rand (e.burst rand c) rest
  | .update dt :: rest => runOps lc rand (e.update lc rand dt) rest

/-- An animation frame (`AnimationFrame` in `animation.ts`); `meta`,
`anchor` and the spritesheet rectangle only affect drawing. -/
structure AnimFrame where
  x : ℚ
  y : ℚ
  width : ℚ
  height : ℚ
  duration : Option ℚ
deriving DecidableEq, Repr

/-- An animation definition (`Animation` in `animation.ts`); the image,
tag and frame-event tables do not affect frame sequencing. -/
structure Animation where
  frames : List AnimFrame
  loop : Bool
  speed : Option ℚ
  pingPong : Bool
deriving DecidableEq, Repr

/-- The playback state of an `Animator` (the event handler and image cache
are not modelled; frame events are observation-only and do not affect the
state machine). -/
structure AnimatorState where
  currentFrameIndex : ℤ
  direction : ℤ
  frameTime : ℚ
  playing : Bool
deriving DecidableEq, Repr

/-- The state `play(id)` resets to. -/
def animatorPlay : AnimatorState :=
  { currentFrameIndex := 0, direction := 1, frameTime := 0, playing := true }

/-- Embedding of `Animator.update(deltaTime)`: accumulate speed-adjusted frame time and,
when the current frame's duration has elapsed, advance one frame, branching
at the boundaries on `pingPong` (reverse), `loop` (wrap) or neither
(stop). -/
def Animator.update (anim : Animation) (s : AnimatorState) (dt : ℚ) :
    AnimatorState :=
  if s.playing = false then s
  else if anim.frames.length = 0 then s
  else
    let speed := anim.speed.getD 1
    let ft := s.frameTime + dt * speed
    let cur := anim.frames.getD s.currentFrameIndex.toNat ⟨0, 0, 0, 0, none⟩
    let frameDuration := cur.duration.getD 100
    if ft ≥ frameDuration then
      let ft1 := ft - frameDuration
      let next := s.currentFrameIndex + s.direction
      if next ≥ (anim.frames.length : ℤ) ∨ next < 0 then
        if anim.pingPong then
          { s with frameTime := ft1, direction := -s.direction,
                   currentFrameIndex := s.currentFrameIndex + -s.direction }
        else if anim.loop then
          { s with frameTime := ft1,
                   currentFrameIndex :=
                     if 0 < s.direction then 0 else (anim.frames.length : ℤ) - 1 }
        else { s with frameTime := ft1, playing := false }
      else { s with frameTime := ft1, currentFrameIndex := next }
    else { s with frameTime := ft }

/-- The frame indices observed after each of a sequence of updates. -/
def animIndices (anim : Animation) (s : AnimatorState) : List ℚ → List ℤ
  | [] => []
  | dt :: rest =>
      let s' := Animator.update anim s dt
      s'.currentFrameIndex :: animIndices anim s' rest

/-- The eleven easing curves (`EasingFunction` in `animation.ts`). -/
inductive EasingKind where
  | linear
  | easeInQ
  | easeOutQ
  | easeInOutQ
  | cubicIn
  | cubicOut
  | cubicInOut
  | elasticIn
  | elasticOut
  | bounceIn
  | bounceOut
deriving DecidableEq, Repr

/-- The `BOUNCE_OUT` branch of `Tweener.applyEasing` (piecewise
quadratic). -/
def bounceOutEase (t : ℚ) : ℚ :=
  let n1 : ℚ := 7.5625
  let d1 : ℚ := 2.75
  if t < 1 / d1 then n1 * t * t
  else if t < 2 / d1 then n1 * (t - 1.5 / d1) * (t - 1.5 / d1) + 0.75
  else if t < 2.5 / d1 then n1 * (t - 2.25 / d1) * (t - 2.25 / d1) + 0.9375
  else n1 * (t - 2.625 / d1) * (t - 2.625 / d1) + 0.984375

/-- Embedding of `Tweener.applyEasing`.  The two elastic curves use `Math.pow` and
`Math.sin`, which have no exact rational form, so their generic case is
kept abstract as the parameters `eI`/`eO` (their exact-endpoint guards at
`t = 0` and `t = 1` are embedded); every other curve is embedded in
full. -/
def applyEasing (eI eO : ℚ → ℚ) : EasingKind → ℚ → ℚ
  | .linear, t => t
  | .easeInQ, t => easeIn t
  | .easeOutQ, t => easeOut t
  | .easeInOutQ, t => easeInOut t
  | .cubicIn, t => t * t * t
  | .cubicOut, t => 1 - (1 - t) ^ 3
  | .cubicInOut, t => if t < 1/2 then 4 * t * t * t else 1 - (-2 * t + 2) ^ 3 / 2
  | .elasticIn, t => if t = 0 then 0 else if t = 1 then 1 else eI t
  | .elasticOut, t => if t = 0 then 0 else if t = 1 then 1 else eO t
  | .bounceIn, t => 1 - bounceOutEase (1 - t)
  | .bounceOut, t => bounceOutEase t

/-- A tweenable value: the three interpolation shapes `Tweener.update`
dispatches on (number, `{x, y}` vector, generic flat numeric-field
object).  `Tween<T>` gives `from` and `to` the same type, so the shapes
always match. -/
inductive TVal where
  | num (v : ℚ)
  | vec (v : Vector2D)
  | obj (fields : List (String × ℚ))
deriving DecidableEq, Repr

/-- Write `lerp(from[key], to[key], t)` into `base` for every key of
`fs` that `ts` also maps (the generic-object branch of `Tweener.update`);
other keys of `base` are preserved. -/
def writeObjFields (base : List (String × ℚ)) (t : ℚ) :
    List (String × ℚ) → List (String × ℚ) → List (String × ℚ)
  | [], _ => base
  | (k, fv) :: fs, ts =>
      match ts.lookup k with
      | some tv =>
          writeObjFields
            (if base.any (·.1 = k)
             then base.map fun p => if p.1 = k then (k, lerp fv tv t) else p
             else base ++ [(k, lerp fv tv t)]) t fs ts
      | none => writeObjFields base t fs ts

/-- The value-interpolation dispatch of `Tweener.update`: numbers use
`lerp`, `{x,y}` objects use `lerpVectors`, other objects interpolate each
shared numeric field in place (starting from `{}` when the target property
is unset). -/
def interpValue (fromV toV : TVal) (t : ℚ) (cur : TVal) : TVal :=
  match fromV, toV with
  | .num a, .num b => .num (lerp a b t)
  | .vec a, .vec b => .vec (lerpVectors a b t)
  | .obj fs, .obj ts =>
      let base := match cur with
        | .obj c => c
        | _ => []
      .obj (writeObjFields base t fs ts)
  | _, _ => cur

/-- One record of the `activeTweens` array.  `targetVal` models the cell
`target[property]` that the tween mutates in place (one cell per tween in
all uses relevant here); callbacks are modelled as events. -/
structure TweenRec where
  targetVal : TVal
  fromV : TVal
  toV : TVal
  startTime : ℚ
  endTime : ℚ
  easing : EasingKind
  yoyo : Bool
  repeatCount : ℤ
  elapsed : ℚ
  duration : ℚ
  delay : ℚ
  delayElapsed : Bool
  completed : Bool
  tweenId : ℕ
deriving DecidableEq, Repr

/-- The tween-creation spec (`Tween<T>` minus the callbacks). -/
structure TweenSpec where
  fromV : TVal
  toV : TVal
  duration : ℚ
  delay : Option ℚ
  easing : Option EasingKind
  yoyo : Option Bool
  repeatCount : Option ℤ
deriving DecidableEq, Repr

/-- Embedding of `Tweener.tween(target, spec)` evaluated at wall-clock time `now`:
`start = now + (delay || 0)`, `end = start + duration`,
`repeat = spec.repeat !== undefined ? spec.repeat : 0`,
`delayElapsed = delay ? false : true`.  `initTarget` is the current value
of `target[property]`. -/
def mkTween (now : ℚ) (id : ℕ) (s : TweenSpec) (initTarget : TVal) : TweenRec :=
  { targetVal := initTarget
    fromV := s.fromV
    toV := s.toV
    startTime := now + s.delay.getD 0
    endTime := now + s.delay.getD 0 + s.duration
    easing := s.easing.getD .linear
    yoyo := s.yoyo.getD false
    repeatCount := s.repeatCount.getD 0
    elapsed := 0
    duration := s.duration
    delay := s.delay.getD 0
    delayElapsed := decide (s.delay.getD 0 = 0)
    completed := false
    tweenId := id }

/-- The per-tween outcome of one `Tweener.update` pass: the new record,
whether it stays in `activeTweens`, and whether `onComplete` fired. -/
structure StepResult where
  tween : TweenRec
  keep : Bool
  fired : Bool
deriving DecidableEq, Repr

/-- The body of the `Tweener.update` loop once the delay window is over:
advance `elapsed`, compute eased wall-clock progress, write the
interpolated value, and at `now >= end` pin the exact `to` value and
branch on yoyo / repeat / completion. -/
def stepActive (eI eO : ℚ → ℚ) (now dt : ℚ) (tw1 : TweenRec) : StepResult :=
  let tw2 := { tw1 with elapsed := tw1.elapsed + dt }
  let t0 := min 1 (max 0 ((now - tw2.startTime) / tw2.duration))
  let t := applyEasing eI eO tw2.easing t0
  let tw3 := { tw2 with targetVal := interpValue tw2.fromV tw2.toV t tw2.targetVal }
  if now ≥ tw3.endTime then
    let tw4 := { tw3 with targetVal := tw3.toV }
    if tw4.yoyo then
      let tw5 := { tw4 with fromV := tw4.toV, toV := tw4.fromV,
                            startTime := now, endTime := now + tw4.duration }
      if tw5.repeatCount ≠ -1 then
        let tw6 := { tw5 with repeatCount := tw5.repeatCount - 1 }
        if tw6.repeatCount < 0 then ⟨{ tw6 with completed := true }, false, true⟩
        else ⟨tw6, true, false⟩
      else ⟨tw5, true, false⟩
    else if tw4.repeatCount ≠ -1 then
      let tw5 := { tw4 with repeatCount := tw4.repeatCount - 1 }
      if tw5.repeatCount < 0 then ⟨{ tw5 with completed := true }, false, true⟩
      else ⟨{ tw5 with startTime := now, endTime := now + tw5.duration }, true, false⟩
    else ⟨{ tw4 with completed := true }, false, true⟩
  else ⟨tw3, true, false⟩

/-- One `Tweener.update` pass over a single tween, including the delay
window handling at the top of the loop body. -/
def stepTween (eI eO : ℚ → ℚ) (now dt : ℚ) (tw : TweenRec) : StepResult :=
  if tw.delayElapsed = false then
    if now ≥ tw.startTime then
      stepActive eI eO now dt
        { tw with delayElapsed := true, startTime := now,
                  endTime := now + tw.duration }
    else ⟨tw, true, false⟩
  else stepActive eI eO now dt tw

/-- The observable outcome of one `Tweener.update(dt)` call at wall-clock
time `now`: the new active set, the records removed on this call (their
final states, i.e. the last value written to each one's target cell), and
the ids whose `onComplete` fired. -/
structure TickResult where
  tweens : List TweenRec
  removed : List TweenRec
  completions : List ℕ
deriving DecidableEq, Repr

/-- Embedding of `Tweener.update(deltaTime)` over the active list.  The source iterates
backward and splices completed entries out; each entry is processed
exactly once and the surviving order is preserved, so the pass is a
per-element fold. -/
def Tweener.update (eI eO : ℚ → ℚ) (now dt : ℚ) : List TweenRec → TickResult
  | [] => ⟨[], [], []⟩
  | tw :: rest =>
      let r := stepTween eI eO now dt tw
      let rr := Tweener.update eI eO now dt rest
      if r.keep then
        ⟨r.tween :: rr.tweens, rr.removed,
         (if r.fired then [tw.tweenId] else []) ++ rr.completions⟩
      else
        ⟨rr.tweens, r.tween :: rr.removed,
         (if r.fired then [tw.tweenId] else []) ++ rr.completions⟩

/-- Embedding of the `PresetOptions` interface from `particles.ts`. -/
structure PresetOptions where
  position : Vector2D
  color : Option ColorSpec
  scale : Option ℚ
deriving DecidableEq, Repr

/-- JS `options.scale || 1` (`0` falls back to `1`). -/
def jsOrOne (o : Option ℚ) : ℚ :=
  match o with
  | none => 1
  | some v => if v = 0 then 1 else v

/-- The `'explosion'` preset factory. -/
def explosionPreset (o : PresetOptions) : EmitterOptions :=
  let scale := jsOrOne o.scale
  { position := o.position
    followTarget := none
    emissionRate := 0
    burstCount := some (30 * scale)
    maxParticles := some (30 * scale)
    duration := some 0
    loop := none
    particleOptions :=
      { velocity := some ⟨0, 0⟩
        acceleration := some ⟨0, 0⟩
        color := some (jsOrColor o.color (.many ["#ff5500", "#ffcc00"]))
        colors := none
        size := some (.range (10 * scale) (5 * scale))
        shape := some .circle
        rotation := none
        rotationVelocity := none
        opacity := some (.range 1 0)
        lifetime := some 800
        blendMode := some .add
        fadeOut := some true }
    positionVariance := some ⟨5 * scale, 5 * scale⟩
    velocityVariance := some ⟨400 * scale, 400 * scale⟩
    sizeVariance := some 0.5
    lifetimeVariance := some 0.2
    colorVariance := none }

/-- The `'confetti'` preset factory. -/
def confettiPreset (o : PresetOptions) : EmitterOptions :=
  let scale := jsOrOne o.scale
  let colors : List String :=
    match o.color with
    | none => ["#ff0000", "#00ff00", "#0000ff", "#ffff00", "#ff00ff", "#00ffff"]
    | some (.str s) =>
        if s = "" then ["#ff0000", "#00ff00", "#0000ff", "#ffff00", "#ff00ff", "#00ffff"]
        else [s]
    | some (.many l) => l
  { position := o.position
    followTarget := none
    emissionRate := 20 * scale
    burstCount := none
    maxParticles := some (100 * scale)
    duration := some 3000
    loop := none
    particleOptions :=
      { velocity := some ⟨0, -100 * scale⟩
        acceleration := some ⟨0, 98 * scale⟩
        color := some (.str (colors.getD 0 ""))
        colors := some colors
        size := some (.single (8 * scale))
        shape := some .square
        rotation := some 0
        rotationVelocity := some 50
        opacity := some (.single 1)
        lifetime := some 3000
        blendMode := none
        fadeOut := some false }
    positionVariance := some ⟨50 * scale, 0⟩
    velocityVariance := some ⟨100 * scale, 50 * scale⟩
    sizeVariance := some 0.3
    lifetimeVariance := some 0.2
    colorVariance := none }

/-- The `'sparkles'` preset factory. -/
def sparklesPreset (o : PresetOptions) : EmitterOptions :=
  let scale := jsOrOne o.scale
  { position := o.position
    followTarget := none
    emissionRate := 10 * scale
    burstCount := none
    maxParticles := some (30 * scale)
    duration := some 0
    loop := some true
    particleOptions :=
      { velocity := some ⟨0, -20 * scale⟩
        acceleration := some ⟨0, 0⟩
        color := some (jsOrColor o.color (.str "#ffffff"))
        colors := none
        size := some (.range (3 * scale) (1 * scale))
        shape := some .circle
        rotation := none
        rotationVelocity := none
        opacity := some (.range 1 0)
        lifetime := some 1000
        blendMode := some .add
        fadeOut := some true }
    positionVariance := some ⟨20 * scale, 20 * scale⟩
    velocityVariance := some ⟨20 * scale, 10 * scale⟩
    sizeVariance := some 0.5
    lifetimeVariance := some 0.5
    colorVariance := none }

/-- The `'fire'` preset factory. -/
def firePreset (o : PresetOptions) : EmitterOptions :=
  let scale := jsOrOne o.scale
  { position := o.position
    followTarget := none
    emissionRate := 25 * scale
    burstCount := none
    maxParticles := some (50 * scale)
    duration := some 0
    loop := some true
    particleOptions :=
      { velocity := some ⟨0, -60 * scale⟩
        acceleration := some ⟨0, -20 * scale⟩
        color := some (jsOrColor o.color (.many ["#ff4400", "#ff8800", "#ffcc00"]))
        colors := none
        size := some (.range (15 * scale) (5 * scale))
        shape := some .circle
        rotation := none
        rotationVelocity := none
        opacity := some (.range 0.8 0)
        lifetime := some 1200
        blendMode := some .add
        fadeOut := some true }
    positionVariance := some ⟨10 * scale, 0⟩
    velocityVariance := some ⟨10 * scale, 20 * scale⟩
    sizeVariance := some 0.25
    lifetimeVariance := some 0.2
    colorVariance := none }

/-- The `'smoke'` preset factory. -/
def smokePreset (o : PresetOptions) : EmitterOptions :=
  let scale := jsOrOne o.scale
  { position := o.position
    followTarget := none
    emissionRate := 5 * scale
    burstCount := none
    maxParticles := some (20 * scale)
    duration := some 0
    loop := some true
    particleOptions :=
      { velocity := some ⟨0, -15 * scale⟩
        acceleration := some ⟨0, -5 * scale⟩
        color := some (jsOrColor o.color (.many ["#333333", "#555555", "#777777"]))
        colors := none
        size := some (.range (20 * scale) (40 * scale))
        shape := some .circle
        rotation := none
        rotationVelocity := none
        opacity := some (.range 0.3 0)
        lifetime := some 3000
        blendMode := some .normal
        fadeOut := some true }
    positionVariance := some ⟨5 * scale, 5 * scale⟩
    velocityVariance := some ⟨8 * scale, 3 * scale⟩
    sizeVariance := some 0.2
    lifetimeVariance := some 0.2
    colorVariance := none }

/-- The `'rain'` preset factory (note the `'line'` shape literal). -/
def rainPreset (o : PresetOptions) : EmitterOptions :=
  let scale := jsOrOne o.scale
  { position := ⟨o.position.x, 0⟩
    followTarget := some true
    emissionRate := 50 * scale
    burstCount := none
    maxParticles := some (200 * scale)
    duration := some 0
    loop := some true
    particleOptions :=
      { velocity := some ⟨-20 * scale, 300 * scale⟩
        acceleration := some ⟨0, 50 * scale⟩
        color := some (jsOrColor o.color (.str "#aaccff"))
        colors := none
        size := some (.range (2 * scale) (2 * scale))
        shape := some .line
        rotation := some 20
        rotationVelocity := none
        opacity := some (.range 0.5 0.3)
        lifetime := some 1200
        blendMode := some .normal
        fadeOut := some false }
    positionVariance := some ⟨150 * scale, 0⟩
    velocityVariance := some ⟨10 * scale, 30 * scale⟩
    sizeVariance := some 0.5
    lifetimeVariance := some 0.3
    colorVariance := none }

/-- Lookup in a string-keyed association list (`Map.get`). -/
def lookupKey {α : Type} : List (String × α) → String → Option α
  | [], _ => none
  | (k, v) :: rest, key => if k = key then some v else lookupKey rest key

/-- Embedding of `Map.set`: replace the entry if the key exists, otherwise append. -/
def setKey {α : Type} (l : List (String × α)) (key : String) (v : α) :
    List (String × α) :=
  if l.any (·.1 = key) then
    l.map fun p => if p.1 = key then (key, v) else p
  else l ++ [(key, v)]

/-- The `ParticleSystem` registries (canvas, image cache, resize observer
and the self-scheduling frame loop are rendering/DOM concerns and are not
modelled). -/
structure ParticleSystem where
  emitters : List (String × ParticleEmitter)
  presets : List (String × (PresetOptions → EmitterOptions))

/-- Embedding of `registerDefaultPresets`, in registration order. -/
def defaultPresets : List (String × (PresetOptions → EmitterOptions)) :=
  [("explosion", explosionPreset),
   ("confetti", confettiPreset),
   ("sparkles", sparklesPreset),
   ("fire", firePreset),
   ("smoke", smokePreset),
   ("rain", rainPreset)]

/-- A freshly constructed `ParticleSystem`. -/
def newParticleSystem : ParticleSystem :=
  { emitters := [], presets := defaultPresets }

/-- Embedding of `ParticleSystem.createEmitter(id, options)`. -/
def ParticleSystem.createEmitter (sys : ParticleSystem) (id : String)
    (o : EmitterOptions) : ParticleSystem × ParticleEmitter :=
  let em := mkEmitter o
  ({ sys with emitters := setKey sys.emitters id em }, em)

/-- Embedding of `ParticleSystem.createEmitterFromPreset(id, presetName, options)`:
returns the new system state, the created emitter (`null` when the preset
name is unknown) and whether the `console.warn` branch was taken. -/
def ParticleSystem.createEmitterFromPreset (sys : ParticleSystem) (id : String)
    (presetName : String) (o : PresetOptions) :
    ParticleSystem × Option ParticleEmitter × Bool :=
  match lookupKey sys.presets presetName with
  | none => (sys, none, true)
  | some presetFn =>
      let r := sys.createEmitter id (presetFn o)
      (r.1, some r.2, false)

/-- Embedding of `ParticleSystem.getEmitter(id)`. -/
def ParticleSystem.getEmitter (sys : ParticleSystem) (id : String) :
    Option ParticleEmitter :=
  lookupKey sys.emitters id

/-- Embedding of `ParticleSystem.registerPreset(name, presetFn)`. -/
def ParticleSystem.registerPreset (sys : ParticleSystem) (name : String)
    (presetFn : PresetOptions → EmitterOptions) : ParticleSystem :=
  { sys with presets := setKey sys.presets name presetFn }

/-! ### Shared concrete inputs for the scenario theorems -/

/-- A concrete stand-in for the abstract `lerpColor` helper. -/
def lcFst : String → String → ℚ → String := fun c _ _ => c

/-- A concrete random stream. -/
def randZero : ℕ → ℚ := fun _ => 0

/-- A concrete stand-in for the transcendental elastic easings. -/
def idEase : ℚ → ℚ := fun t => t

/-- Particle options with every optional field left `undefined`. -/
def emptyParticleOptions : ParticleOptions :=
  ⟨none, none, none, none, none, none, none, none, none, none, none, none⟩

/-! ### Basic lemmas -/

/-- Updating an inactive particle returns `false` at once and
leaves the particle untouched. -/
theorem Particle.update_inactive_frozen (lc : String → String → ℚ → String)
    (p : Particle) (dt : ℚ) (h : p.active = false) :
    p.update lc dt = ⟨p, false, false⟩ := by
  simp [Particle.update, h]

/-- Updating an inactive emitter is the identity. -/
theorem ParticleEmitter.update_inactive_noop (lc : String → String → ℚ → String)
    (rand : ℕ → ℚ) (e : ParticleEmitter) (dt : ℚ) (h : e.active = false) :
    e.update lc rand dt = e := by
  simp [ParticleEmitter.update, h]

/-- Iterated updates of an inactive emitter change nothing. -/
theorem emitterRun_not_active (lc : String → String → ℚ → String)
    (rand : ℕ → ℚ) (e : ParticleEmitter) (h : e.active = false) :
    ∀ dts : List ℚ, emitterRun lc rand e dts = e := by
  intro dts
  induction dts with
  | nil => rfl
  | cons dt rest ih =>
      simp [emitterRun, ParticleEmitter.update_inactive_noop lc rand e dt h, ih]

/-- Stopping an emitter clears the active flag. -/
theorem ParticleEmitter.stop_active (e : ParticleEmitter) :
    e.stop.active = false := rfl

/-! ### C1 — emitter stopped with live particles -/

/-- Options for the C1 scenario: a single-particle burst with a 100 ms
particle lifetime and no continuous emission. -/
def c1Opts : EmitterOptions :=
  ⟨⟨0, 0⟩, none, 0, some 1, none, none, none,
   { emptyParticleOptions with lifetime := some 100 }, none, none, none, none, none⟩

/-- The C1 emitter: started (bursting one particle) and then stopped while
that particle is live. -/
def c1Stopped : ParticleEmitter :=
  ((mkEmitter c1Opts).start randZero).stop

/-- C1: the spec requires `update` after `stop()` to keep advancing the
remaining live particles until they all expire and `isActive()` turns
false.  The code instead returns from `update` immediately whenever the
active flag is down, so a stopped emitter's particles are frozen forever:
after `stop()` with one live 100 ms particle, any sequence of `update`
calls (however much total time passes) leaves the emitter unchanged, the
particle count at 1 and `isActive()` true. -/
theorem claim_c1 :
    ∀ (lc : String → String → ℚ → String) (rand : ℕ → ℚ) (dts : List ℚ),
      emitterRun lc rand c1Stopped dts = c1Stopped ∧
      c1Stopped.getParticleCount = 1 ∧
      (emitterRun lc rand c1Stopped dts).getParticleCount = 1 ∧
      (emitterRun lc rand c1Stopped dts).isActive = true := by
  intro lc rand dts
  have h : emitterRun lc rand c1Stopped dts = c1Stopped :=
    emitterRun_not_active lc rand c1Stopped (ParticleEmitter.stop_active _) dts
  refine ⟨h, by with_unfolding_all decide, ?_, ?_⟩ <;> rw [h] <;> with_unfolding_all decide

/-! ### C2 — particles emitted mid-update age within the same call -/

/-- Options for the C2 scenario: 1000 particles/sec so that every 1 ms
update emits exactly one particle, plus a one-particle initial burst. -/
def c2Opts : EmitterOptions :=
  ⟨⟨0, 0⟩, none, 1000, some 1, none, none, none,
   emptyParticleOptions, none, none, none, none, none⟩

/-- Started C2 emitter: one burst particle of age 0. -/
def c2Started : ParticleEmitter := (mkEmitter c2Opts).start randZero

/-- The C2 emitter after one `update(1)` call. -/
def c2AfterOne : ParticleEmitter := c2Started.update lcFst randZero 1

/-- C2 counterexample: before the update there is one particle; the
`update(1)` call emits a second one, and at the end of the call that newly
emitted particle has age 1 (= deltaTime), not 0 — the per-particle update
loop runs over the whole list, including the particles pushed by the
continuous-emission step earlier in the same call. -/
theorem claim_c2_counterexample :
    c2Started.particles.map (·.age) = [0] ∧
    c2AfterOne.particles.length = 2 ∧
    c2AfterOne.particles.map (·.age) = [1, 1] := by
  with_unfolding_all decide

/-- A freshly constructed particle has age 0. -/
theorem mkParticle_age (pos : Vector2D) (o : ParticleOptions) :
    (mkParticle pos o).age = 0 := by
  unfold mkParticle
  repeat' split
  all_goals rfl

/-- Emitting appends one freshly created (age-0) particle. -/
theorem ParticleEmitter.emitParticle_particles (rand : ℕ → ℚ) (e : ParticleEmitter) :
    ∃ p : Particle, (e.emitParticle rand).particles = e.particles ++ [p] ∧ p.age = 0 := by
  unfold ParticleEmitter.emitParticle
  repeat' split
  all_goals exact ⟨_, rfl, mkParticle_age _ _⟩

/-- The emission loop appends only freshly created (age-0) particles. -/
theorem ParticleEmitter.emitN_append (rand : ℕ → ℚ) :
    ∀ (n : ℕ) (e : ParticleEmitter), ∃ ps : List Particle,
      (e.emitN rand n).particles = e.particles ++ ps ∧ ∀ q ∈ ps, q.age = 0 := by
  intro n
  induction n with
  | zero => intro e; exact ⟨[], (List.append_nil _).symm, by simp⟩
  | succ k ih =>
      intro e
      rw [ParticleEmitter.emitN]
      split
      · exact ⟨[], (List.append_nil _).symm, by simp⟩
      · obtain ⟨p, hp, hp0⟩ := ParticleEmitter.emitParticle_particles rand e
        obtain ⟨ps, hps, h0⟩ := ih (e.emitParticle rand)
        refine ⟨p :: ps, ?_, ?_⟩
        · rw [hps, hp, List.append_assoc, List.singleton_append]
        · intro q hq
          rcases List.mem_cons.mp hq with h | h
          · subst h; exact hp0
          · exact h0 q h

/-- A surviving particle update advances `age` by exactly `deltaTime`. -/
theorem Particle.update_age_alive (lc : String → String → ℚ → String)
    (q : Particle) (dt : ℚ) (h : (q.update lc dt).alive = true) :
    (q.update lc dt).particle.age = q.age + dt := by
  simp only [Particle.update] at h ⊢
  split at h
  · cases h
  · rename_i hactive
    split at h
    · cases h
    · rename_i hlt
      rw [if_neg hactive, if_neg hlt]

/-- The emission-plus-advance phase (`updateRest`) appends some freshly
created (age-0) particles and then advances every particle of the
combined list, pruning the dead. -/
theorem ParticleEmitter.updateRest_particles (lc : String → String → ℚ → String)
    (rand : ℕ → ℚ) (e : ParticleEmitter) (dt : ℚ) :
    ∃ ps : List Particle,
      (∀ q ∈ ps, q.age = 0) ∧
      (e.updateRest lc rand dt).particles =
        (e.particles ++ ps).filterMap (fun p =>
          if (p.update lc dt).alive = true then some (p.update lc dt).particle
          else none) := by
  simp only [ParticleEmitter.updateRest]
  split
  · obtain ⟨ps, hA, h0⟩ := ParticleEmitter.emitN_append rand
      (⌊e.emissionAccumulator + e.emissionRate * dt / 1000⌋.toNat)
      { e with emissionAccumulator :=
          e.emissionAccumulator + e.emissionRate * dt / 1000 -
            (⌊e.emissionAccumulator + e.emissionRate * dt / 1000⌋ : ℚ) }
    exact ⟨ps, h0, by rw [hA]⟩
  · exact ⟨[], by simp, by rw [List.append_nil]⟩

/-- Version of `updateRest_particles` for an emitter whose particle list
is a known base with freshly appended (age-0) particles. -/
theorem ParticleEmitter.updateRest_append (lc : String → String → ℚ → String)
    (rand : ℕ → ℚ) (dt : ℚ) (X : ParticleEmitter) (base ps0 : List Particle)
    (hX : X.particles = base ++ ps0) (h0 : ∀ q ∈ ps0, q.age = 0) :
    ∃ ps : List Particle,
      (∀ q ∈ ps, q.age = 0) ∧
      (X.updateRest lc rand dt).particles =
        (base ++ ps).filterMap (fun p =>
          if (p.update lc dt).alive = true then some (p.update lc dt).particle
          else none) := by
  obtain ⟨ps1, h01, hA1⟩ := ParticleEmitter.updateRest_particles lc rand X dt
  refine ⟨ps0 ++ ps1, ?_, ?_⟩
  · intro q hq
    rcases List.mem_append.mp hq with h | h
    · exact h0 q h
    · exact h01 q h
  · rw [hA1, hX, List.append_assoc]

/-- Equation for `update` on an active emitter whose duration does not
expire on this call: age bookkeeping followed by `updateRest`. -/
theorem ParticleEmitter.update_eq_noexpiry (lc : String → String → ℚ → String)
    (rand : ℕ → ℚ) (e : ParticleEmitter) (dt : ℚ) (hactive : e.active = true)
    (hd : ¬(0 < e.duration ∧ e.duration ≤ e.age + dt)) :
    e.update lc rand dt =
      ParticleEmitter.updateRest lc rand { e with age := e.age + dt } dt := by
  simp only [ParticleEmitter.update]
  rw [if_neg (by simp [hactive]), if_neg hd]

/-- Equation for `update` on an active looping emitter whose duration
expires on this call: age reset, optional re-burst, then `updateRest`. -/
theorem ParticleEmitter.update_eq_loop (lc : String → String → ℚ → String)
    (rand : ℕ → ℚ) (e : ParticleEmitter) (dt : ℚ) (hactive : e.active = true)
    (hd : 0 < e.duration ∧ e.duration ≤ e.age + dt) (hl : e.loop = true) :
    e.update lc rand dt =
      ParticleEmitter.updateRest lc rand
        (if 0 < e.burstCount
         then ParticleEmitter.burst rand { e with age := 0 } e.burstCount
         else { e with age := 0 }) dt := by
  simp only [ParticleEmitter.update]
  rw [if_neg (by simp [hactive]), if_pos hd, if_pos hl]

/-- C2 amended: for every emitter and every `update(deltaTime)` call that
reaches the particle-processing phase (the emitter is active, and an
expiring duration has `loop` set — on the other paths `update` returns
early and emits nothing), the call appends freshly created (age-0)
particles from re-burst and continuous emission to the pre-existing list
and then advances EVERY particle of the combined list by `deltaTime`,
pruning the expired: each surviving particle's age grows by exactly
`deltaTime`, so a particle created by continuous emission during the call
ends the call already updated, with age `deltaTime` (not 0), exactly like
the pre-existing particles. -/
theorem claim_c2 (lc : String → String → ℚ → String) (rand : ℕ → ℚ)
    (e : ParticleEmitter) (dt : ℚ) (hactive : e.active = true)
    (hloop : (0 < e.duration ∧ e.duration ≤ e.age + dt) → e.loop = true) :
    (∃ emitted : List Particle,
      (∀ q ∈ emitted, q.age = 0) ∧
      (e.update lc rand dt).particles =
        (e.particles ++ emitted).filterMap (fun p =>
          if (p.update lc dt).alive = true then some (p.update lc dt).particle
          else none)) ∧
    (∀ q : Particle, (q.update lc dt).alive = true →
      (q.update lc dt).particle.age = q.age + dt) ∧
    (∀ p ∈ (e.update lc rand dt).particles,
      p.age = dt ∨ ∃ q ∈ e.particles, p.age = q.age + dt) := by
  have hdec : ∃ emitted : List Particle,
      (∀ q ∈ emitted, q.age = 0) ∧
      (e.update lc rand dt).particles =
        (e.particles ++ emitted).filterMap (fun p =>
          if (p.update lc dt).alive = true then some (p.update lc dt).particle
          else none) := by
    rcases Classical.em (0 < e.duration ∧ e.duration ≤ e.age + dt) with hd | hd
    · rw [ParticleEmitter.update_eq_loop lc rand e dt hactive hd (hloop hd)]
      split
      · obtain ⟨ps0, hA0, h00⟩ := ParticleEmitter.emitN_append rand
          (loopCount e.burstCount) { e with age := 0 }
        exact ParticleEmitter.updateRest_append lc rand dt _ e.particles ps0
          (by rw [ParticleEmitter.burst]; exact hA0) h00
      · exact ParticleEmitter.updateRest_append lc rand dt _ e.particles []
          (by simp) (by simp)
    · rw [ParticleEmitter.update_eq_noexpiry lc rand e dt hactive hd]
      exact ParticleEmitter.updateRest_append lc rand dt _ e.particles []
        (by simp) (by simp)
  refine ⟨hdec, fun q h => Particle.update_age_alive lc q dt h, ?_⟩
  obtain ⟨emitted, h0, heq⟩ := hdec
  intro p hp
  rw [heq] at hp
  obtain ⟨q, hq, hfq⟩ := List.mem_filterMap.mp hp
  split at hfq
  · rename_i halive
    have hage := Particle.update_age_alive lc q dt halive
    have hpq : (q.update lc dt).particle = p := Option.some.inj hfq
    rcases List.mem_append.mp hq with hmem | hmem
    · right
      exact ⟨q, hmem, by rw [← hpq, hage]⟩
    · left
      rw [← hpq, hage, h0 q hmem, zero_add]
  · cases hfq

/-- Witness for the amended C2: the started C2 emitter (one live burst
particle, duration 0 so no expiry) updated with `deltaTime = 1`. -/
theorem claim_c2_witness :
    (∃ emitted : List Particle,
      (∀ q ∈ emitted, q.age = 0) ∧
      (c2Started.update lcFst randZero 1).particles =
        (c2Started.particles ++ emitted).filterMap (fun p =>
          if (p.update lcFst 1).alive = true then some (p.update lcFst 1).particle
          else none)) ∧
    (∀ q : Particle, (q.update lcFst 1).alive = true →
      (q.update lcFst 1).particle.age = q.age + 1) ∧
    (∀ p ∈ (c2Started.update lcFst randZero 1).particles,
      p.age = 1 ∨ ∃ q ∈ c2Started.particles, p.age = q.age + 1) :=
  claim_c2 lcFst randZero c2Started 1 (by with_unfolding_all decide)
    (fun h => absurd h.1 (by with_unfolding_all decide))

/-! ### C4 — emission accumulator exactness -/

/-- Options for the C4 scenario: `emissionRate = 10`/sec, unlimited
particles, no burst; a long particle lifetime so nothing expires inside
the measured window. -/
def c4Opts : EmitterOptions :=
  ⟨⟨0, 0⟩, none, 10, none, none, none, none,
   { emptyParticleOptions with lifetime := some 5000 }, none, none, none, none, none⟩

/-- The C4 emitter after `start()` and ten `update(100)` calls. -/
def c4Final : ParticleEmitter :=
  emitterRun lcFst randZero ((mkEmitter c4Opts).start randZero)
    (List.replicate 10 100)

/-- C4: with `emissionRate = 10` particles/sec and `maxParticles = 0`, ten
updates of 100 ms each emit exactly 10 particles in total — the
accumulator gains `10 * 100 / 1000 = 1` per tick, emits `floor` of it and
keeps the remainder, so nothing is lost to rounding. -/
theorem claim_c4 :
    c4Final.emittedTotal = 10 ∧ c4Final.particles.length = 10 := by
  with_unfolding_all decide

/-! ### C6 — fadeOut opacity boundary values -/

/-- The C6 particle: `fadeOut = true`, `startOpacity = endOpacity = 1`,
lifetime 100 ms. -/
def c6Particle : Particle :=
  mkParticle ⟨0, 0⟩
    { emptyParticleOptions with
        lifetime := some 100, fadeOut := some true, opacity := some (.single 1) }

/-- C6: updating the fresh C6 particle to lifetime progress `0.74` yields
opacity `1` (the normal start→end interpolation rescaled into
`[0, 0.75]`); progress `0.99` yields `1/25 = 0.04`, near 0; and the
fade-out interpolation applied by `Particle.update` yields exactly `0` at
progress `1`. -/
theorem claim_c6 :
    (c6Particle.update lcFst 74).particle.opacity = 1 ∧
    (c6Particle.update lcFst 99).particle.opacity = 1/25 ∧
    fadeOutOpacity 1 1 1 = 0 := by
  with_unfolding_all decide

/-! ### C8 — animator frame order: loop vs ping-pong -/

/-- A 100 ms animation frame. -/
def frame100 : AnimFrame := ⟨0, 0, 16, 16, some 100⟩

/-- Three-frame looping animation. -/
def loopAnim : Animation := ⟨[frame100, frame100, frame100], true, none, false⟩

/-- Three-frame ping-pong animation. -/
def pingAnim : Animation := ⟨[frame100, frame100, frame100], false, none, true⟩

/-- C8: stepping each animation with `update(100)` so each frame's 100 ms
duration elapses in turn, the looping 3-frame animation visits indices
`0,1,2,0,1,2,0` while the ping-pong animation visits `0,1,2,1,0,1,2,1`,
reversing direction at each boundary instead of wrapping. -/
theorem claim_c8 :
    (0 :: animIndices loopAnim animatorPlay (List.replicate 6 100))
      = [0, 1, 2, 0, 1, 2, 0] ∧
    (0 :: animIndices pingAnim animatorPlay (List.replicate 7 100))
      = [0, 1, 2, 1, 0, 1, 2, 1] := by
  with_unfolding_all decide

/-! ### C3 — the `maxParticles` cap -/

/-- Emitting one particle does not change the configured cap. -/
theorem ParticleEmitter.emitParticle_maxParticles (rand : ℕ → ℚ)
    (e : ParticleEmitter) : (e.emitParticle rand).maxParticles = e.maxParticles := by
  unfold ParticleEmitter.emitParticle
  repeat' split
  all_goals rfl

/-- Emitting one particle appends exactly one particle to the live list. -/
theorem ParticleEmitter.emitParticle_length (rand : ℕ → ℚ)
    (e : ParticleEmitter) :
    (e.emitParticle rand).particles.length = e.particles.length + 1 := by
  unfold ParticleEmitter.emitParticle
  repeat' split
  all_goals simp

/-- The cap-checked emission loop keeps `particles.length ≤ ⌈c⌉` whenever
the cap is the positive number `c`: the guard refuses to emit once
`length ≥ c`, so the count can pass `c` only by the fractional part of
`c`. -/
theorem ParticleEmitter.emitN_inv (rand : ℕ → ℚ) (c : ℚ) (hc : 0 < c) :
    ∀ (n : ℕ) (e : ParticleEmitter), e.maxParticles = c →
      (e.particles.length : ℤ) ≤ ⌈c⌉ →
      (e.emitN rand n).maxParticles = c ∧
      ((e.emitN rand n).particles.length : ℤ) ≤ ⌈c⌉ := by
  intro n
  induction n with
  | zero => intro e hmax hlen; exact ⟨hmax, hlen⟩
  | succ k ih =>
      intro e hmax hlen
      rw [ParticleEmitter.emitN]
      split
      · exact ⟨hmax, hlen⟩
      · rename_i hstop
        have hlt : (e.particles.length : ℚ) < c := by
          by_contra hge
          exact hstop ⟨by rw [hmax]; exact hc, by rw [hmax]; exact not_lt.mp hge⟩
        have hlt2 : (e.particles.length : ℤ) < ⌈c⌉ := by
          rw [Int.lt_ceil]
          exact_mod_cast hlt
        exact ih (e.emitParticle rand)
          (by rw [ParticleEmitter.emitParticle_maxParticles, hmax])
          (by rw [ParticleEmitter.emitParticle_length]; push_cast; omega)

/-- Bursting keeps the ceiling invariant. -/
theorem ParticleEmitter.burst_inv (rand : ℕ → ℚ) (c : ℚ) (hc : 0 < c)
    (count : ℚ) (e : ParticleEmitter) (hmax : e.maxParticles = c)
    (hlen : (e.particles.length : ℤ) ≤ ⌈c⌉) :
    (e.burst rand count).maxParticles = c ∧
    ((e.burst rand count).particles.length : ℤ) ≤ ⌈c⌉ :=
  ParticleEmitter.emitN_inv rand c hc (loopCount count) e hmax hlen

/-- Emission plus per-particle update (`updateRest`) keeps the ceiling
invariant. -/
theorem ParticleEmitter.updateRest_inv (lc : String → String → ℚ → String)
    (rand : ℕ → ℚ) (c : ℚ) (hc : 0 < c) (dt : ℚ) (e : ParticleEmitter)
    (hmax : e.maxParticles = c) (hlen : (e.particles.length : ℤ) ≤ ⌈c⌉) :
    (e.updateRest lc rand dt).maxParticles = c ∧
    ((e.updateRest lc rand dt).particles.length : ℤ) ≤ ⌈c⌉ := by
  unfold ParticleEmitter.updateRest
  split
  · have h := ParticleEmitter.emitN_inv rand c hc
      (⌊e.emissionAccumulator + e.emissionRate * dt / 1000⌋.toNat)
      { e with emissionAccumulator :=
          e.emissionAccumulator + e.emissionRate * dt / 1000 -
            (⌊e.emissionAccumulator + e.emissionRate * dt / 1000⌋ : ℚ) }
      hmax hlen
    exact ⟨h.1,
      le_trans (by exact_mod_cast List.length_filterMap_le _ _) h.2⟩
  · exact ⟨hmax,
      le_trans (by exact_mod_cast List.length_filterMap_le _ _) hlen⟩

/-- One `update` keeps the ceiling invariant. -/
theorem ParticleEmitter.update_inv (lc : String → String → ℚ → String)
    (rand : ℕ → ℚ) (c : ℚ) (hc : 0 < c) (dt : ℚ) (e : ParticleEmitter)
    (hmax : e.maxParticles = c) (hlen : (e.particles.length : ℤ) ≤ ⌈c⌉) :
    (e.update lc rand dt).maxParticles = c ∧
    ((e.update lc rand dt).particles.length : ℤ) ≤ ⌈c⌉ := by
  simp only [ParticleEmitter.update]
  split
  · exact ⟨hmax, hlen⟩
  · split
    · split
      · split
        · refine ParticleEmitter.updateRest_inv lc rand c hc dt _ ?_ ?_
          · exact (ParticleEmitter.burst_inv rand c hc _ _ (by simpa using hmax)
              (by simpa using hlen)).1
          · exact (ParticleEmitter.burst_inv rand c hc _ _ (by simpa using hmax)
              (by simpa using hlen)).2
        · exact ParticleEmitter.updateRest_inv lc rand c hc dt _
            (by simpa using hmax) (by simpa using hlen)
      · exact ⟨by simpa using hmax, by simpa using hlen⟩
    · exact ParticleEmitter.updateRest_inv lc rand c hc dt _
        (by simpa using hmax) (by simpa using hlen)

/-- Starting keeps the ceiling invariant. -/
theorem ParticleEmitter.start_inv (rand : ℕ → ℚ) (c : ℚ) (hc : 0 < c)
    (e : ParticleEmitter) (hmax : e.maxParticles = c)
    (hlen : (e.particles.length : ℤ) ≤ ⌈c⌉) :
    (e.start rand).maxParticles = c ∧
    ((e.start rand).particles.length : ℤ) ≤ ⌈c⌉ := by
  simp only [ParticleEmitter.start]
  split
  · exact ParticleEmitter.burst_inv rand c hc _ _ (by simpa using hmax)
      (by simpa using hlen)
  · exact ⟨by simpa using hmax, by simpa using hlen⟩

/-- Any interleaving of emitter operations keeps the ceiling invariant. -/
theorem runOps_inv (lc : String → String → ℚ → String) (rand : ℕ → ℚ)
    (c : ℚ) (hc : 0 < c) :
    ∀ (ops : List EmitterOp) (e : ParticleEmitter),
      e.maxParticles = c → (e.particles.length : ℤ) ≤ ⌈c⌉ →
      (runOps lc rand e ops).maxParticles = c ∧
      ((runOps lc rand e ops).particles.length : ℤ) ≤ ⌈c⌉ := by
  intro ops
  induction ops with
  | nil => intro e hmax hlen; exact ⟨hmax, hlen⟩
  | cons op rest ih =>
      intro e hmax hlen
      cases op with
      | start =>
          rw [runOps]
          have h := ParticleEmitter.start_inv rand c hc e hmax hlen
          exact ih _ h.1 h.2
      | stop =>
          rw [runOps]
          exact ih _ hmax hlen
      | burst count =>
          rw [runOps]
          have h := ParticleEmitter.burst_inv rand c hc count e hmax hlen
          exact ih _ h.1 h.2
      | update dt =>
          rw [runOps]
          have h := ParticleEmitter.update_inv lc rand c hc dt e hmax hlen
          exact ih _ h.1 h.2

/-- C3 scenario options with a fractional cap: `maxParticles = 1.5`. -/
def c3FracOpts : EmitterOptions :=
  ⟨⟨0, 0⟩, none, 0, none, some (3/2), none, none,
   emptyParticleOptions, none, none, none, none, none⟩

/-- C3 counterexample: `maxParticles` is a JS number and may be fractional
(directly, or via a preset `scale`); with the positive cap `1.5`, a
`burst(2)` leaves 2 live particles — the guard
`particles.length >= maxParticles` only refuses once the count reaches the
cap, so the live count exceeds the fractional cap, refuting
`particles.length ≤ maxParticles` for every `maxParticles > 0`. -/
theorem claim_c3_counterexample :
    0 < (mkEmitter c3FracOpts).maxParticles ∧
    (runOps lcFst randZero (mkEmitter c3FracOpts) [.start, .burst 2]).maxParticles
      = 3/2 ∧
    (runOps lcFst randZero (mkEmitter c3FracOpts) [.start, .burst 2]).particles.length
      = 2 ∧
    (runOps lcFst randZero (mkEmitter c3FracOpts) [.start, .burst 2]).maxParticles <
      ((runOps lcFst randZero (mkEmitter c3FracOpts)
          [.start, .burst 2]).particles.length : ℚ) := by
  with_unfolding_all decide

/-- C3 amended: for an emitter configured with any positive cap
`maxParticles`, under every sequence of `start()`, `stop()`, `burst(n)`
and `update(dt)` operations the number of live particles never exceeds
`⌈maxParticles⌉`; in particular, for an integer cap `m > 0` (the intended
configuration, e.g. `maxParticles = 5`) it never exceeds `maxParticles`
itself.  Emission attempts past the cap, including a burst request larger
than the cap, are dropped silently (every operation is total; there is no
error path). -/
theorem claim_c3 (lc : String → String → ℚ → String) (rand : ℕ → ℚ)
    (o : EmitterOptions) (ops : List EmitterOp)
    (hc : 0 < (mkEmitter o).maxParticles) :
    (((runOps lc rand (mkEmitter o) ops).particles.length : ℤ)
        ≤ ⌈(mkEmitter o).maxParticles⌉) ∧
    ∀ m : ℕ, (mkEmitter o).maxParticles = (m : ℚ) →
      (runOps lc rand (mkEmitter o) ops).particles.length ≤ m := by
  have h := runOps_inv lc rand (mkEmitter o).maxParticles hc ops (mkEmitter o) rfl
    (by rw [show (mkEmitter o).particles = [] from rfl]
        simpa using le_of_lt (Int.ceil_pos.mpr hc))
  refine ⟨h.2, ?_⟩
  intro m hm
  have h2 := h.2
  rw [hm, Int.ceil_natCast] at h2
  exact_mod_cast h2

/-- C3 scenario options: `maxParticles = 5` with a high emission rate. -/
def c3Opts : EmitterOptions :=
  ⟨⟨0, 0⟩, none, 20, none, some 5, none, none,
   emptyParticleOptions, none, none, none, none, none⟩

/-- Witness for the amended C3: with the integer cap 5, after `start()`, a
`burst(20)` and a 1-second update (which wants 20 more particles), the
live count is at most `⌈5⌉` and at most 5. -/
theorem claim_c3_witness :
    (((runOps lcFst randZero (mkEmitter c3Opts)
          [.start, .burst 20, .update 1000]).particles.length : ℤ)
        ≤ ⌈(mkEmitter c3Opts).maxParticles⌉) ∧
    (runOps lcFst randZero (mkEmitter c3Opts)
        [.start, .burst 20, .update 1000]).particles.length ≤ 5 :=
  ⟨(claim_c3 lcFst randZero c3Opts [.start, .burst 20, .update 1000]
      (by with_unfolding_all decide)).1,
   (claim_c3 lcFst randZero c3Opts [.start, .burst 20, .update 1000]
      (by with_unfolding_all decide)).2 5 (by with_unfolding_all decide)⟩

/-! ### C5 — yoyo cycle boundaries -/

/-- The C5 tween: `yoyo = true`, `repeat` left undefined (defaulting to
`0`), from 0 to 100 over 1000 ms, created at wall-clock 0. -/
def c5Tween : TweenRec :=
  mkTween 0 1 ⟨.num 0, .num 100, 1000, none, none, some true, none⟩ (.num 0)

/-- C5 counterexample: a yoyo tween with the default `repeat = 0` does NOT
remain active at its first cycle boundary — the update at the end of the
cycle decrements `repeat` below zero inside the yoyo branch, marks the
tween completed, fires `onComplete` and removes it from the active set. -/
theorem claim_c5_counterexample :
    (Tweener.update idEase idEase 1000 1000 [c5Tween]).tweens = [] ∧
    (Tweener.update idEase idEase 1000 1000 [c5Tween]).removed.map (·.completed)
      = [true] ∧
    (Tweener.update idEase idEase 1000 1000 [c5Tween]).completions = [1] := by
  with_unfolding_all decide

/-- C5 amended: when an update reaches the end of a cycle of an active
yoyo tween, the tween always swaps `from`/`to` and resets its start/end
timing to the current wall-clock time; it stays in the active set (not
completed) exactly when repeats remain (`repeat = -1`, infinite, or
`repeat ≥ 1`, which is decremented) — with no repeats remaining
(`repeat ≤ 0`, in particular the default `repeat = 0`) it is instead
marked completed and removed at that cycle boundary. -/
theorem claim_c5 (eI eO : ℚ → ℚ) (now dt : ℚ) (tw : TweenRec)
    (hdelay : tw.delayElapsed = true) (hyoyo : tw.yoyo = true)
    (hcompleted : tw.completed = false) (hend : tw.endTime ≤ now) :
    (stepTween eI eO now dt tw).tween.fromV = tw.toV ∧
    (stepTween eI eO now dt tw).tween.toV = tw.fromV ∧
    (stepTween eI eO now dt tw).tween.startTime = now ∧
    (stepTween eI eO now dt tw).tween.endTime = now + tw.duration ∧
    ((stepTween eI eO now dt tw).keep = true ↔
      (tw.repeatCount = -1 ∨ 1 ≤ tw.repeatCount)) ∧
    ((stepTween eI eO now dt tw).tween.completed = true ↔
      ¬(tw.repeatCount = -1 ∨ 1 ≤ tw.repeatCount)) := by
  simp only [stepTween, hdelay, Bool.true_eq_false, if_false]
  simp only [stepActive, hyoyo, ge_iff_le, hcompleted]
  rw [if_pos hend]
  simp only [if_true]
  split
  · rename_i hne
    split
    · rename_i hneg
      refine ⟨rfl, rfl, rfl, rfl, ?_, ?_⟩ <;> simp <;> omega
    · rename_i hpos
      refine ⟨rfl, rfl, rfl, rfl, ?_, ?_⟩ <;> simp [hcompleted] <;> omega
  · rename_i heq
    simp only [ne_eq, Decidable.not_not] at heq
    refine ⟨rfl, rfl, rfl, rfl, ?_, ?_⟩ <;> simp [hcompleted, heq]

/-- The C5 witness tween: yoyo with infinite repeat (`repeat = -1`). -/
def c5InfTween : TweenRec :=
  mkTween 0 1 ⟨.num 0, .num 100, 1000, none, none, some true, some (-1)⟩ (.num 0)

/-- Witness for the amended C5: at the cycle end of an infinite-repeat
yoyo tween, `from`/`to` are swapped, timing is reset and the tween is kept
(not completed). -/
theorem claim_c5_witness :
    (stepTween idEase idEase 1000 500 c5InfTween).tween.fromV = c5InfTween.toV ∧
    (stepTween idEase idEase 1000 500 c5InfTween).tween.toV = c5InfTween.fromV ∧
    (stepTween idEase idEase 1000 500 c5InfTween).tween.startTime = 1000 ∧
    (stepTween idEase idEase 1000 500 c5InfTween).tween.endTime
      = 1000 + c5InfTween.duration ∧
    ((stepTween idEase idEase 1000 500 c5InfTween).keep = true ↔
      (c5InfTween.repeatCount = -1 ∨ 1 ≤ c5InfTween.repeatCount)) ∧
    ((stepTween idEase idEase 1000 500 c5InfTween).tween.completed = true ↔
      ¬(c5InfTween.repeatCount = -1 ∨ 1 ≤ c5InfTween.repeatCount)) :=
  claim_c5 idEase idEase 1000 500 c5InfTween (by with_unfolding_all decide)
    (by with_unfolding_all decide) (by with_unfolding_all decide)
    (by with_unfolding_all decide)

/-! ### C7 — tween completion contract -/

/-- Every branch of `stepTween` either keeps the tween with its
`completed` flag untouched, or drops it with `completed` freshly set:
removal from the active set coincides exactly with setting `completed`,
and `onComplete` fires exactly on removal. -/
theorem stepTween_cases (eI eO : ℚ → ℚ) (now dt : ℚ) (tw : TweenRec) :
    ((stepTween eI eO now dt tw).keep = true ∧
     (stepTween eI eO now dt tw).fired = false ∧
     (stepTween eI eO now dt tw).tween.completed = tw.completed) ∨
    ((stepTween eI eO now dt tw).keep = false ∧
     (stepTween eI eO now dt tw).fired = true ∧
     (stepTween eI eO now dt tw).tween.completed = true) := by
  simp only [stepTween, stepActive]
  repeat' split
  all_goals simp

/-- A tween whose delay window is over and whose end time has not been
reached is kept, fires nothing and keeps its `completed` flag. -/
theorem stepTween_not_end (eI eO : ℚ → ℚ) (now dt : ℚ) (tw : TweenRec)
    (hdelay : tw.delayElapsed = true) (h : now < tw.endTime) :
    (stepTween eI eO now dt tw).keep = true ∧
    (stepTween eI eO now dt tw).fired = false ∧
    (stepTween eI eO now dt tw).tween.completed = tw.completed := by
  simp only [stepTween, hdelay, Bool.true_eq_false, if_false]
  simp only [stepActive, ge_iff_le]
  rw [if_neg (by exact not_le.mpr h)]
  exact ⟨rfl, rfl, rfl⟩

/-- A non-yoyo tween with `repeat = 0` whose end time has been reached is
completed on this call: `onComplete` fires, the tween is dropped, and the
target cell holds exactly the `to` value. -/
theorem stepTween_once (eI eO : ℚ → ℚ) (now dt : ℚ) (tw : TweenRec)
    (hdelay : tw.delayElapsed = true) (hyoyo : tw.yoyo = false)
    (hrep : tw.repeatCount = 0) (hend : tw.endTime ≤ now) :
    (stepTween eI eO now dt tw).keep = false ∧
    (stepTween eI eO now dt tw).fired = true ∧
    (stepTween eI eO now dt tw).tween.completed = true ∧
    (stepTween eI eO now dt tw).tween.targetVal = tw.toV := by
  simp only [stepTween, hdelay, Bool.true_eq_false, if_false]
  simp only [stepActive, hyoyo, ge_iff_le, hrep, Bool.false_eq_true, if_false]
  rw [if_pos hend]
  norm_num

/-- The C7 tween: numeric 0 → 100 over 1000 ms, `repeat = 0`, no yoyo, no
delay, created at wall-clock 0 (so its end time is 1000). -/
def c7Tween : TweenRec :=
  mkTween 0 1 ⟨.num 0, .num 100, 1000, none, none, none, some 0⟩ (.num 0)

/-- C7: for the 0→100/1000 ms tween with `repeat = 0` and no yoyo,
(i) every update strictly before the end time keeps the single tween,
fires no `onComplete` and leaves it un-completed; (ii) the first update at
or past the end time fires `onComplete` exactly once, removes the tween,
and leaves the target property at exactly `100` with the `completed` flag
set; (iii) in any update pass, tweens are removed exactly when their
`completed` flag is set; and (iv) once the active set is empty, updates do
nothing, so `onComplete` cannot fire a second time. -/
theorem claim_c7 :
    (∀ (eI eO : ℚ → ℚ) (now dt : ℚ), now < 1000 →
      (Tweener.update eI eO now dt [c7Tween]).tweens.length = 1 ∧
      (Tweener.update eI eO now dt [c7Tween]).removed = [] ∧
      (Tweener.update eI eO now dt [c7Tween]).completions = [] ∧
      ∀ t ∈ (Tweener.update eI eO now dt [c7Tween]).tweens, t.completed = false) ∧
    (∀ (eI eO : ℚ → ℚ) (now dt : ℚ), 1000 ≤ now →
      (Tweener.update eI eO now dt [c7Tween]).tweens = [] ∧
      (Tweener.update eI eO now dt [c7Tween]).completions = [1] ∧
      (Tweener.update eI eO now dt [c7Tween]).removed.map (·.targetVal)
        = [.num 100] ∧
      (Tweener.update eI eO now dt [c7Tween]).removed.map (·.completed)
        = [true]) ∧
    (∀ (eI eO : ℚ → ℚ) (now dt : ℚ) (l : List TweenRec),
      (∀ tw ∈ l, tw.completed = false) →
      (∀ t ∈ (Tweener.update eI eO now dt l).tweens, t.completed = false) ∧
      (∀ t ∈ (Tweener.update eI eO now dt l).removed, t.completed = true)) ∧
    (∀ (eI eO : ℚ → ℚ) (now dt : ℚ),
      Tweener.update eI eO now dt [] = ⟨[], [], []⟩) := by
  refine ⟨?_, ?_, ?_, ?_⟩
  · intro eI eO now dt hnow
    have hd : c7Tween.delayElapsed = true := by simp [c7Tween, mkTween]
    have he : c7Tween.endTime = 1000 := by simp [c7Tween, mkTween]
    have hc : c7Tween.completed = false := by simp [c7Tween, mkTween]
    have hne := stepTween_not_end eI eO now dt c7Tween hd (by rw [he]; exact hnow)
    simp only [Tweener.update, hne.1, if_true]
    refine ⟨rfl, trivial, ?_, ?_⟩
    · rw [hne.2.1]
      simp
    · intro t ht
      simp only [List.mem_singleton] at ht
      subst ht
      rw [hne.2.2, hc]
  · intro eI eO now dt hnow
    have hd : c7Tween.delayElapsed = true := by simp [c7Tween, mkTween]
    have he : c7Tween.endTime = 1000 := by simp [c7Tween, mkTween]
    have hy : c7Tween.yoyo = false := by simp [c7Tween, mkTween]
    have hr : c7Tween.repeatCount = 0 := by simp [c7Tween, mkTween]
    have hid : c7Tween.tweenId = 1 := by simp [c7Tween, mkTween]
    have hto : c7Tween.toV = .num 100 := by simp [c7Tween, mkTween]
    have hoc := stepTween_once eI eO now dt c7Tween hd hy hr (by rw [he]; exact hnow)
    simp only [Tweener.update, hoc.1, Bool.false_eq_true, if_false]
    refine ⟨trivial, ?_, ?_, ?_⟩
    · rw [hoc.2.1]
      simp [hid]
    · simp only [List.map_cons, List.map_nil, hoc.2.2.2, hto]
    · simp only [List.map_cons, List.map_nil, hoc.2.2.1]
  · intro eI eO now dt l
    induction l with
    | nil => intro _; simp [Tweener.update]
    | cons tw rest ih =>
        intro hall
        have hrest := ih fun t ht => hall t (List.mem_cons_of_mem tw ht)
        have htw := hall tw (List.mem_cons_self tw rest)
        rcases stepTween_cases eI eO now dt tw with hkeep | hdrop
        · simp only [Tweener.update, hkeep.1, if_true]
          constructor
          · intro t ht
            rcases List.mem_cons.mp ht with h | h
            · subst h; rw [hkeep.2.2, htw]
            · exact hrest.1 t h
          · exact hrest.2
        · simp only [Tweener.update, hdrop.1, Bool.false_eq_true, if_false]
          constructor
          · exact hrest.1
          · intro t ht
            rcases List.mem_cons.mp ht with h | h
            · subst h; exact hdrop.2.2
            · exact hrest.2 t h
  · intro eI eO now dt
    rfl

/-- Witness for C7: concrete instances of the four parts — a mid-flight
update at `now = 500` keeps the un-completed tween silently, the update at
`now = 1000` completes it exactly once with the target pinned to 100, the
removal/completed coincidence holds for the concrete singleton list, and
the empty active set is a fixed point. -/
theorem claim_c7_witness :
    ((Tweener.update idEase idEase 500 500 [c7Tween]).tweens.length = 1 ∧
     (Tweener.update idEase idEase 500 500 [c7Tween]).removed = [] ∧
     (Tweener.update idEase idEase 500 500 [c7Tween]).completions = [] ∧
     ∀ t ∈ (Tweener.update idEase idEase 500 500 [c7Tween]).tweens,
       t.completed = false) ∧
    ((Tweener.update idEase idEase 1000 500 [c7Tween]).tweens = [] ∧
     (Tweener.update idEase idEase 1000 500 [c7Tween]).completions = [1] ∧
     (Tweener.update idEase idEase 1000 500 [c7Tween]).removed.map (·.targetVal)
       = [.num 100] ∧
     (Tweener.update idEase idEase 1000 500 [c7Tween]).removed.map (·.completed)
       = [true]) ∧
    ((∀ t ∈ (Tweener.update idEase idEase 0 0 [c7Tween]).tweens,
       t.completed = false) ∧
     (∀ t ∈ (Tweener.update idEase idEase 0 0 [c7Tween]).removed,
       t.completed = true)) ∧
    Tweener.update idEase idEase 0 0 [] = ⟨[], [], []⟩ :=
  ⟨claim_c7.1 idEase idEase 500 500 (by norm_num),
   claim_c7.2.1 idEase idEase 1000 500 le_rfl,
   claim_c7.2.2.1 idEase idEase 0 0 [c7Tween]
     (by intro tw htw
         simp only [List.mem_singleton] at htw
         subst htw
         simp [c7Tween, mkTween]),
   claim_c7.2.2.2 idEase idEase 0 0⟩

/-! ### C9 — unknown preset names -/

/-- C9: for any `ParticleSystem` state and any preset name not present in
the preset registry, `createEmitterFromPreset` returns `null` after taking
the `console.warn` branch, and the system state — in particular the
emitter registry — is returned unchanged (the function is total, so no
exception can escape). -/
theorem claim_c9 (sys : ParticleSystem) (id presetName : String)
    (o : PresetOptions) (h : lookupKey sys.presets presetName = none) :
    sys.createEmitterFromPreset id presetName o = (sys, none, true) := by
  unfold ParticleSystem.createEmitterFromPreset
  rw [h]

/-- Witness for C9: the name `"vortex"` is not among the six default
presets of a fresh system, so creating from it yields `null`, a warning,
and an unchanged system. -/
theorem claim_c9_witness :
    lookupKey newParticleSystem.presets "vortex" = none ∧
    newParticleSystem.createEmitterFromPreset "e1" "vortex" ⟨⟨0, 0⟩, none, none⟩
      = (newParticleSystem, none, true) :=
  ⟨rfl, claim_c9 newParticleSystem "e1" "vortex" ⟨⟨0, 0⟩, none, none⟩ rfl⟩

/-! ### C10 — the particle end callback fires at most once -/

/-- Total number of `onEnd` firings over a sequence of updates. -/
def particleRun (lc : String → String → ℚ → String) :
    Particle → List ℚ → ℕ
  | _, [] => 0
  | p, dt :: rest =>
      (if (p.update lc dt).endFired then 1 else 0) +
        particleRun lc (p.update lc dt).particle rest

/-- When `onEnd` fires, the particle has just been deactivated. -/
theorem Particle.update_endFired_not_active (lc : String → String → ℚ → String)
    (p : Particle) (dt : ℚ) (h : (p.update lc dt).endFired = true) :
    (p.update lc dt).particle.active = false := by
  simp only [Particle.update] at h ⊢
  split at h
  · cases h
  · rename_i hactive
    split at h
    · rename_i hge
      rw [if_neg hactive, if_pos hge]
    · cases h

/-- An inactive particle never fires `onEnd` again. -/
theorem particleRun_not_active (lc : String → String → ℚ → String)
    (p : Particle) (h : p.active = false) :
    ∀ dts : List ℚ, particleRun lc p dts = 0 := by
  intro dts
  induction dts with
  | nil => rfl
  | cons dt rest ih =>
      rw [particleRun, Particle.update_inactive_frozen lc p dt h]
      simpa using ih

/-- C10: (i) over any sequence of `update(deltaTime)` calls, a particle's
`onEnd` callback point is reached at most once; (ii) an update of an
already-inactive particle returns `false` immediately and leaves the
particle state — every field — unchanged; and (iii) for an active
particle, `onEnd` fires on an update exactly when that update pushes
`age + deltaTime` to or past `lifetime`. -/
theorem claim_c10 :
    (∀ (lc : String → String → ℚ → String) (p : Particle) (dts : List ℚ),
      particleRun lc p dts ≤ 1) ∧
    (∀ (lc : String → String → ℚ → String) (p : Particle) (dt : ℚ),
      p.active = false → p.update lc dt = ⟨p, false, false⟩) ∧
    (∀ (lc : String → String → ℚ → String) (p : Particle) (dt : ℚ),
      p.active = true →
      ((p.update lc dt).endFired = true ↔ p.lifetime ≤ p.age + dt)) := by
  refine ⟨?_, ?_, ?_⟩
  · intro lc p dts
    induction dts generalizing p with
    | nil => exact Nat.zero_le 1
    | cons dt rest ih =>
        rw [particleRun]
        by_cases hf : (p.update lc dt).endFired = true
        · rw [if_pos hf,
            particleRun_not_active lc _ (Particle.update_endFired_not_active lc p dt hf)]
        · rw [if_neg hf]
          simpa using ih (p.update lc dt).particle
  · exact Particle.update_inactive_frozen
  · intro lc p dt hp
    unfold Particle.update
    simp only [hp, Bool.true_eq_false, if_false]
    split
    · rename_i hge
      simpa using hge
    · rename_i hlt
      simpa using hlt

/-- A concrete particle whose `active` flag is down. -/
def deadParticle : Particle :=
  { mkParticle ⟨0, 0⟩ emptyParticleOptions with active := false }

/-- A concrete live particle (fresh from the constructor). -/
def liveParticle : Particle := mkParticle ⟨0, 0⟩ emptyParticleOptions

/-- Witness for C10: over two concrete updates the end callback fires at
most once; updating the concrete inactive particle is a frozen no-op; and
on the concrete live particle (lifetime 1000) an `update(1000)` reaches
the `onEnd` point. -/
theorem claim_c10_witness :
    particleRun lcFst deadParticle [50, 100] ≤ 1 ∧
    deadParticle.update lcFst 50 = ⟨deadParticle, false, false⟩ ∧
    ((liveParticle.update lcFst 1000).endFired = true ↔
      liveParticle.lifetime ≤ liveParticle.age + 1000) :=
  ⟨claim_c10.1 lcFst deadParticle [50, 100],
   claim_c10.2.1 lcFst deadParticle 50 rfl,
   claim_c10.2.2 lcFst liveParticle 1000 (by simp [liveParticle, mkParticle])⟩

end EightBitGE
